import Mathlib

/-!
Verification of the tbook terminal reader core: a shallow embedding of the
content extractors (`src/parser/pdf.rs`, `src/parser/epub.rs`), the layout
flattener and the navigation/selection/annotation arithmetic
(`src/app.rs`, `src/ui/reader.rs`), with theorems settling the spec's
claims about them.

Conventions of the embedding:
* Rust `usize` values are modelled as `Nat`; the source only ever uses
  saturating or guarded arithmetic on them, which `Nat` subtraction models.
* A decoded image (`image::DynamicImage`) is modelled by its pixel
  dimensions `(w, h) : Nat × Nat`; a `StatefulProtocol` in the side table
  is likewise modelled by the dimensions of the image it wraps.
* Rust `str::split_whitespace` is modelled by splitting at whitespace
  characters and dropping empty pieces.
* The floating-point height computation in `flatten_content` (`f32`) is
  modelled in exact arithmetic; at every concrete input used in a theorem
  below the `f32` computation is exact, so the models agree there.
-/

namespace Tbook

/-!
String primitives.  The Rust string operations the source uses are
re-implemented structurally over a string's character list so that every
definition evaluates by kernel reduction on concrete inputs.
-/

/-- Build a string from its character list. -/
def ofChars (cs : List Char) : String := ⟨cs⟩

/-- Worker for `splitWhitespace`: accumulate the current word (reversed)
and cut at whitespace, emitting no empty pieces. -/
def wordsAux : List Char → List Char → List (List Char)
  | [], acc => if acc.isEmpty then [] else [acc.reverse]
  | c :: cs, acc =>
      if c.isWhitespace then
        if acc.isEmpty then wordsAux cs [] else acc.reverse :: wordsAux cs []
      else wordsAux cs (c :: acc)

/-- Model of Rust `str::split_whitespace`: maximal runs of non-whitespace
characters, in order. -/
def splitWhitespace (s : String) : List String :=
  (wordsAux s.data []).map ofChars

/-- Worker for `splitChar`. -/
def splitCharAux (sep : Char) : List Char → List Char → List String
  | [], acc => [ofChars acc.reverse]
  | c :: cs, acc =>
      if c = sep then ofChars acc.reverse :: splitCharAux sep cs []
      else splitCharAux sep cs (c :: acc)

/-- Model of Rust `str::split` (and of `String::splitOn`) at a one-character
separator: the pieces between occurrences of `sep`, empty pieces kept. -/
def splitChar (sep : Char) (s : String) : List String :=
  splitCharAux sep s.data []

/-- Model of Rust `str::starts_with`. -/
def starts_with (s pre : String) : Bool := pre.data.isPrefixOf s.data

/-- Model of Rust `str::ends_with`. -/
def ends_with (s suf : String) : Bool := suf.data.isSuffixOf s.data

/-- Drop the first `n` characters of a string (Rust `&s[n..]` on ASCII /
`strip_prefix` remainders). -/
def string_drop (s : String) (n : Nat) : String := ofChars (s.data.drop n)

/-- Model of Rust `str::trim`: remove leading and trailing whitespace. -/
def rust_trim (s : String) : String :=
  ofChars (((s.data.dropWhile Char.isWhitespace).reverse.dropWhile
    Char.isWhitespace).reverse)

/-- Strip one trailing carriage return, as Rust `str::lines` does for
`\r\n` line endings. -/
def strip_cr (p : String) : String :=
  if ends_with p "\r" then ofChars p.data.dropLast else p

/-- Model of Rust `str::lines`: split at `\n`, strip a `\r` left at the
end of a piece by a `\r\n` ending, and drop the empty piece produced by a
final trailing newline.  The empty string yields no lines. -/
def rust_lines (s : String) : List String :=
  if s = "" then []
  else
    let parts := splitChar '\n' s
    match parts.getLast? with
    | some last =>
        let front := parts.dropLast.map strip_cr
        if last = "" then front else front ++ [last]
    | none => []

/-- `src/parser/mod.rs` `PageContent`: one extracted content item.  An
image is represented by its pixel dimensions. -/
inductive PageContent where
  | Text (s : String)
  | Image (w h : Nat)
deriving DecidableEq, Repr

/-- `src/app.rs` `RenderLine`: one cursor-addressable line of the render
buffer. -/
inductive RenderLine where
  | Text (s : String)
  | Image (protocol_idx row_idx : Nat)
deriving DecidableEq, Repr

/-- The display height in lines that `flatten_content` assigns to an image
of pixel size `w × h`:
`((80 as f32 * (h as f32 / w as f32)) * 0.5) as usize`, clamped to
`[5, 30]`.  In exact arithmetic the cast truncates `40 * h / w`, which for
`w > 0` is `Nat` division. -/
def height_lines (w h : Nat) : Nat :=
  ((40 * h / w).max 5).min 30

/-- One step of `flatten_content`'s loop over content items: text is split
into lines, an image contributes `height_lines` consecutive image rows
sharing the next protocol index and appends its protocol to the side
table. -/
def flatten_step : List RenderLine × List (Nat × Nat) → PageContent →
    List RenderLine × List (Nat × Nat)
  | (lines, protocols), .Text s =>
      (lines ++ (rust_lines s).map RenderLine.Text, protocols)
  | (lines, protocols), .Image w h =>
      let hl := height_lines w h
      (lines ++ (List.range hl).map (fun i => RenderLine.Image protocols.length i),
       protocols ++ [(w, h)])

/-- `src/app.rs` `App::flatten_content`: flatten extracted content items
into a render buffer and a side table of image protocols, substituting a
single placeholder line when the buffer would be empty. -/
def flatten_content (content : List PageContent) : List RenderLine × List (Nat × Nat) :=
  let p := content.foldl flatten_step ([], [])
  if p.1.isEmpty then ([RenderLine.Text " [ Empty ] "], p.2) else p

/-- `src/db/mod.rs` `AnnotationRecord` (the `kind` column is present in the
schema used by `src/app.rs` and `src/ui/reader.rs`). -/
structure AnnotationRecord where
  id : Int
  chapter : Nat
  start_line : Nat
  start_word : Nat
  end_line : Nat
  end_word : Nat
  content : String
  note : Option String
  kind : String
deriving DecidableEq, Repr

/-- `src/db/mod.rs` `BookRecord`: a stored library entry with reading
progress. -/
structure BookRecord where
  id : Int
  title : String
  author : String
  path : String
  current_chapter : Nat
  current_line : Nat
  total_chapters : Nat
  total_lines : Nat
  lines_read : Nat
deriving DecidableEq, Repr

/-- `src/app.rs` `LoadedBook`: the state of the currently open book.  The
`parser` handle and `start_time` are not representable and are not read by
the operations modelled here; `image_protocols` entries are modelled by
the dimensions of the images they wrap. -/
structure LoadedBook where
  id : Int
  path : String
  current_chapter : Nat
  current_line : Nat
  viewport_top : Nat
  chapter_content : List RenderLine
  image_protocols : List (Nat × Nat)
  word_index : Nat
  selection_anchor : Option (Nat × Nat)
  chapter_annotations : List AnnotationRecord
  words_read : Nat
  session_words_logged : Nat
deriving DecidableEq, Repr

/-- The words of a render line: a text line's whitespace-separated words,
none for an image row. -/
def lineWords : RenderLine → List String
  | .Text s => splitWhitespace s
  | .Image _ _ => []

/-- `src/app.rs` `App::sync_word_index`: re-clamp `word_index` against the
word count of the current line — to the last valid index when it is past
the end of a non-empty text line, to `0` on an empty text line or an image
row, untouched otherwise (including when the line index is out of
range). -/
def sync_word_index (b : LoadedBook) : LoadedBook :=
  match b.chapter_content.get? b.current_line with
  | some (.Text line) =>
      let words := (splitWhitespace line).length
      if b.word_index ≥ words ∧ words > 0 then
        { b with word_index := words - 1 }
      else if words = 0 then
        { b with word_index := 0 }
      else b
  | some (.Image _ _) => { b with word_index := 0 }
  | none => b

/-- `src/app.rs` `App::scroll_viewport_down` (restricted to the loaded
book): move the viewport down one line when possible, accrue the word
count of the line leaving the top into `words_read`, and drag the cursor
down if it fell above the new top. -/
def scroll_viewport_down (b : LoadedBook) : LoadedBook :=
  if b.viewport_top + 1 < b.chapter_content.length then
    let b := { b with viewport_top := b.viewport_top + 1 }
    let b :=
      match b.chapter_content.get? (b.viewport_top - 1) with
      | some (.Text line) =>
          { b with words_read := b.words_read + (splitWhitespace line).length }
      | _ => b
    if b.current_line < b.viewport_top then
      { b with current_line := b.viewport_top }
    else b
  else b

/-- `src/app.rs` `App::scroll_viewport_up` (restricted to the loaded
book): move the viewport up one line when it is not already at the top. -/
def scroll_viewport_up (b : LoadedBook) : LoadedBook :=
  if b.viewport_top > 0 then { b with viewport_top := b.viewport_top - 1 } else b

/-- `src/app.rs` `App::move_cursor_down` (restricted to the loaded book):
move the cursor down one line when not on the last line, auto-scroll the
viewport with a 2-line margin, then re-clamp the word index. -/
def move_cursor_down (height : Nat) (b : LoadedBook) : LoadedBook :=
  if b.current_line + 1 < b.chapter_content.length then
    let b := { b with current_line := b.current_line + 1 }
    let b :=
      if b.current_line ≥ b.viewport_top + (height - 2) then
        { b with viewport_top := b.viewport_top + 1 }
      else b
    sync_word_index b
  else b

/-- `src/app.rs` `App::move_cursor_up` (restricted to the loaded book):
move the cursor up one line when not on the first line, pull the viewport
up to it if needed, then re-clamp the word index. -/
def move_cursor_up (b : LoadedBook) : LoadedBook :=
  if b.current_line > 0 then
    let b := { b with current_line := b.current_line - 1 }
    let b :=
      if b.current_line < b.viewport_top then
        { b with viewport_top := b.current_line }
      else b
    sync_word_index b
  else b

/-- The retreat-to-previous-line step shared by the two arms of
`src/app.rs` `App::cursor_left`: when not on the first line, decrement
the cursor line, pull the viewport up to it if needed, and re-clamp the
word index. -/
def cursor_left_retreat (b : LoadedBook) : LoadedBook :=
  if b.current_line > 0 then
    let b := { b with current_line := b.current_line - 1 }
    let b :=
      if b.current_line < b.viewport_top then
        { b with viewport_top := b.current_line }
      else b
    sync_word_index b
  else b

/-- `src/app.rs` `App::cursor_left` (restricted to the loaded book): on a
text line with `word_index > 0` step one word left; otherwise (at word 0,
or on an image row) retreat to the previous line when there is one,
pulling the viewport up and re-clamping the word index. -/
def cursor_left (b : LoadedBook) : LoadedBook :=
  match b.chapter_content.get? b.current_line with
  | some (.Text _line) =>
      if b.word_index > 0 then { b with word_index := b.word_index - 1 }
      else if b.current_line > 0 then
        cursor_left_retreat b
      else b
  | some (.Image _ _) => cursor_left_retreat b
  | none => b

/-- `src/app.rs` `App::cursor_right` (restricted to the loaded book): on a
text line with more words to the right step one word right; otherwise
advance to the next line at word 0 when there is one, auto-scrolling the
viewport with a 2-line margin. -/
def cursor_right (height : Nat) (b : LoadedBook) : LoadedBook :=
  let advance (b : LoadedBook) : LoadedBook :=
    if b.current_line + 1 < b.chapter_content.length then
      let b := { b with current_line := b.current_line + 1 }
      let b :=
        if b.current_line ≥ b.viewport_top + (height - 2) then
          { b with viewport_top := b.viewport_top + 1 }
        else b
      { b with word_index := 0 }
    else b
  match b.chapter_content.get? b.current_line with
  | some (.Text line) =>
      if b.word_index + 1 < (splitWhitespace line).length then
        { b with word_index := b.word_index + 1 }
      else advance b
  | some (.Image _ _) => advance b
  | none => b

/-- `src/app.rs` `App::get_selection_range` (restricted to the loaded
book): when an anchor is set, the anchor and the cursor ordered with the
lexicographically earlier `(line, word)` first; `none` otherwise. -/
def get_selection_range (b : LoadedBook) : Option (Nat × Nat × Nat × Nat) :=
  match b.selection_anchor with
  | some (anchor_line, anchor_word) =>
      if anchor_line < b.current_line ∨
          (anchor_line = b.current_line ∧ anchor_word ≤ b.word_index) then
        some (anchor_line, anchor_word, b.current_line, b.word_index)
      else
        some (b.current_line, b.word_index, anchor_line, anchor_word)
  | none => none

/-- The words contributed by line `li` of `content` to
`get_selected_text` for the range `(sl, sw, el, ew)`: body of the
`for li in sl..=el` loop of `src/app.rs` `App::get_selected_text`.  Image
rows and out-of-range lines contribute nothing; the Rust
`w_start..=w_end` range is empty when `w_start > w_end`. -/
def selected_words_of_line (content : List RenderLine) (sl sw el ew li : Nat) :
    List String :=
  match content.get? li with
  | some (.Text line) =>
      let words := splitWhitespace line
      let w_start := if li = sl then sw else 0
      let w_end := if li = el then min ew (words.length - 1) else words.length - 1
      (List.range' w_start (w_end + 1 - w_start)).filterMap (fun wi => words.get? wi)
  | _ => []

/-- `src/app.rs` `App::get_selected_text` (restricted to the loaded book):
collect the selected words line by line over the active range and join
them with single spaces; empty when no range is active. -/
def get_selected_text (b : LoadedBook) : String :=
  match get_selection_range b with
  | some (sl, sw, el, ew) =>
      String.intercalate " "
        ((List.range' sl (el + 1 - sl)).flatMap
          (selected_words_of_line b.chapter_content sl sw el ew))
  | none => ""

/-- `src/app.rs` `App::load_book`, after parsing has produced the unit's
content items and storage the book's annotation records: build the
`LoadedBook` state.  The cursor and viewport are set to the stored
progress line, the word index to 0, and the annotations filtered to the
stored chapter; no clamping against the new buffer is performed. -/
def load_book (record : BookRecord) (content : List PageContent)
    (annos : List AnnotationRecord) : LoadedBook :=
  let flat := flatten_content content
  { id := record.id
    path := record.path
    current_chapter := record.current_chapter
    current_line := record.current_line
    viewport_top := record.current_line
    chapter_content := flat.1
    image_protocols := flat.2
    word_index := 0
    selection_anchor := none
    chapter_annotations := annos.filter (fun a => a.chapter = record.current_chapter)
    words_read := 0
    session_words_logged := 0 }

/-- `src/app.rs` `App::jump_to_annotation`, same-chapter branch: the
cursor, viewport and word index are set directly from the annotation's
start position and the selection is cleared; the buffer is not rebuilt
and no clamping is performed. -/
def jump_to_anno_same_chapter (b : LoadedBook) (anno : AnnotationRecord) :
    LoadedBook :=
  { b with
    current_line := anno.start_line
    viewport_top := anno.start_line
    word_index := anno.start_word
    selection_anchor := none }

/-- Whether `word` is a valid cursor word index for line `line` of
`content` under the spec's cursor invariant: strictly below the word
count on a text line with at least one word, `0` on an empty text line or
an image row.  (An out-of-range line imposes no word condition.) -/
def word_index_ok (content : List RenderLine) (line word : Nat) : Bool :=
  match content.get? line with
  | some (.Text s) =>
      let words := (splitWhitespace s).length
      if words > 0 then word < words else word = 0
  | some (.Image _ _) => word = 0
  | none => true

/-- The spec's cursor invariant for a loaded book: the cursor line is in
the buffer and the word index is valid for that line. -/
def cursorInvariant (b : LoadedBook) : Bool :=
  decide (b.current_line < b.chapter_content.length) &&
    word_index_ok b.chapter_content b.current_line b.word_index

/-- `src/ui/reader.rs` `render`, annotation membership chain: whether the
word at `(line, wi)` lies inside annotation `anno`.  The source is an
if/else-if cascade, reproduced literally. -/
def is_in_anno (anno : AnnotationRecord) (line wi : Nat) : Bool :=
  if anno.start_line < line ∧ line < anno.end_line then true
  else if line = anno.start_line ∧ line = anno.end_line then
    decide (anno.start_word ≤ wi ∧ wi ≤ anno.end_word)
  else if line = anno.start_line then decide (anno.start_word ≤ wi)
  else if line = anno.end_line then decide (wi ≤ anno.end_word)
  else false

namespace PdfParser

/-- `src/parser/pdf.rs` `PdfParser::get_chapter_content`, with the two
external poppler invocations passed in as parameters: `textResult` is the
outcome of the `pdftotext` run for the page (`Except.error` when the
command cannot run or exits unsuccessfully, `Except.ok stdout`
otherwise), and `renderResult` the outcome of rasterizing the page via
`pdftoppm` and decoding it (an image's dimensions on success).  When the
extracted text is empty after trimming, the page degrades to the rendered
image, or to the placeholder text when rendering also fails. -/
def get_chapter_content (textResult : Except String String)
    (renderResult : Except String (Nat × Nat)) :
    Except String (List PageContent) :=
  match textResult with
  | .error e => .error e
  | .ok text =>
      if rust_trim text = "" then
        match renderResult with
        | .ok (w, h) => .ok [PageContent.Image w h]
        | .error _ =>
            .ok [PageContent.Text " [ Blank Page or Text Not Extractable ] "]
      else
        .ok [PageContent.Text text]

end PdfParser

namespace EpubParser

/-- An EPUB document as seen by the image-resolution code of
`src/parser/epub.rs` `EpubParser::get_chapter_content`: lookup of raw
bytes by manifest resource id (`EpubDoc::get_resource`), lookup by archive
path (`EpubDoc::get_resource_by_path`), and the archive paths of all
manifest resources (`EpubDoc::resources`, in iteration order).  Byte
blobs are abstracted to `Nat` tokens. -/
structure EpubDocM where
  byId : String → Option Nat
  byPath : String → Option Nat
  resourcePaths : List String

/-- Strip a fragment or query suffix from an archive path, as the source
does with `split('#').next()` followed by `split('?').next()`. -/
def strip_frag_query (rest : String) : String :=
  ((splitChar '?' ((splitChar '#' rest).headD rest)).headD rest)

/-- Model of `Path::new(src).file_name()` for the common case used on
image references: the last `/`-separated non-empty component. -/
def file_name (src : String) : String :=
  (((splitChar '/' src).filter (fun c => c ≠ "")).getLast?).getD ""

/-- The image byte-resolution chain of `src/parser/epub.rs`
`EpubParser::get_chapter_content` for one matched reference `src`:
first, when `src` carries the internal `epub://` scheme, lookup by
archive path with any fragment/query suffix stripped; second, when that
yielded nothing, lookup by manifest resource id on the full `src`; third,
when both yielded nothing, lookup by the archive path of the first
manifest resource whose path ends with `src`'s trailing filename. -/
def resolve_image_bytes (doc : EpubDocM) (src : String) : Option Nat :=
  let resolved : Option Nat :=
    if starts_with src "epub://" then
      doc.byPath (strip_frag_query (string_drop src 7))
    else none
  let img_data : Option Nat :=
    if resolved.isNone then doc.byId src else none
  let resolved : Option Nat :=
    if resolved.isNone ∧ img_data.isNone then
      let filename := file_name src
      if filename ≠ "" then
        match doc.resourcePaths.find? (fun p => ends_with p filename) with
        | some p => doc.byPath p
        | none => none
      else none
    else resolved
  resolved.orElse (fun _ => img_data)

/-- The content item emitted for one matched image reference `src`:
decode the resolved bytes (`decode` models `image::load_from_memory`,
returning pixel dimensions) into an image item, or a placeholder text
item naming `src` when decoding fails or no resource was resolved.
Extraction of the rest of the chapter always continues: this is total and
never an error. -/
def emit_image_item (doc : EpubDocM) (decode : Nat → Option (Nat × Nat))
    (src : String) : PageContent :=
  match resolve_image_bytes doc src with
  | some bytes =>
      match decode bytes with
      | some (w, h) => PageContent.Image w h
      | none => PageContent.Text ("[ Error decoding image: " ++ src ++ " ]")
  | none => PageContent.Text ("[ Image resource not found: " ++ src ++ " ]")

/-- The resolution chain in the order the spec asserts (stated from the
spec's words, for comparison with `resolve_image_bytes`): first as an
internal resource identifier, second as an internal archive path with any
fragment/query suffix stripped, third by trailing filename. -/
def spec_resolve_image_bytes (doc : EpubDocM) (src : String) : Option Nat :=
  (doc.byId src).orElse (fun _ =>
    (doc.byPath (strip_frag_query
      (if starts_with src "epub://" then string_drop src 7 else src))).orElse (fun _ =>
        let filename := file_name src
        if filename ≠ "" then
          match doc.resourcePaths.find? (fun p => ends_with p filename) with
          | some p => doc.byPath p
          | none => none
        else none))

end EpubParser

/-- The image display height as the spec's words state it (for comparison
with `height_lines`): `clamp(round(assumed_width_chars * (h/w) *
cell_aspect_ratio), 5, 30)` with `assumed_width_chars = 80` and
`cell_aspect_ratio = 1/2`, where `round` rounds half away from zero as
Rust `f32::round` does (for nonnegative `x`, `round x = floor (x + 1/2)`). -/
def spec_height_lines (w h : Nat) : Nat :=
  ((Int.floor (((80 : ℚ) * ((h : ℚ) / (w : ℚ)) * (1 / 2)) + 1 / 2)).toNat.max 5).min 30

/-- The resolution chain of `resolve_image_bytes` rewritten as a plain
ordered `orElse` chain: archive path (for `epub://` references, suffix
stripped), then manifest resource id, then trailing-filename match. -/
def amended_resolve (doc : EpubParser.EpubDocM) (src : String) : Option Nat :=
  ((if starts_with src "epub://" then
      doc.byPath (EpubParser.strip_frag_query (string_drop src 7))
    else none).orElse (fun _ => doc.byId src)).orElse (fun _ =>
      let filename := EpubParser.file_name src
      if filename ≠ "" then
        match doc.resourcePaths.find? (fun p => ends_with p filename) with
        | some p => doc.byPath p
        | none => none
      else none)

/-- The selected text as the spec's words state it (for comparison with
`get_selected_text`): for each line of the range slice its words by the
whitespace convention — the full line for interior lines, from
`start_word` on the start line, up to `end_word` on the end line — and
join all selected words with single spaces. -/
def spec_selected_text (content : List RenderLine) (sl sw el ew : Nat) : String :=
  String.intercalate " "
    ((List.range' sl (el + 1 - sl)).flatMap (fun li =>
      let words :=
        match content.get? li with
        | some l => lineWords l
        | none => []
      let words := if li = el then words.take (ew + 1) else words
      if li = sl then words.drop sw else words))

/-- Fixture: a loaded book over the given buffer with the given cursor
and anchor, empty annotations. -/
def bookOf (content : List RenderLine) (line word : Nat)
    (anchor : Option (Nat × Nat)) : LoadedBook :=
  { id := 1
    path := "book.epub"
    current_chapter := 0
    current_line := line
    viewport_top := 0
    chapter_content := content
    image_protocols := []
    word_index := word
    selection_anchor := anchor
    chapter_annotations := []
    words_read := 0
    session_words_logged := 0 }

/-- Fixture for C1: two text lines, cursor at word 0 of line 1. -/
def exC1 : LoadedBook :=
  bookOf [RenderLine.Text "a b c", RenderLine.Text "x"] 1 0 none

/-- Fixture for C2: a stored record whose progress line (5) exceeds the
length of the buffer its one-line chapter flattens to. -/
def exC2record : BookRecord :=
  { id := 7, title := "t", author := "a", path := "p.epub",
    current_chapter := 0, current_line := 5, total_chapters := 1,
    total_lines := 0, lines_read := 0 }

/-- Fixture for C5: a document in which the matched reference is both a
valid manifest resource id (bytes 1) and, stripped of its scheme, a valid
archive path (bytes 2). -/
def exC5doc : EpubParser.EpubDocM :=
  { byId := fun s => if s = "epub://img/a.png" then some 1 else none
    byPath := fun s => if s = "img/a.png" then some 2 else none
    resourcePaths := ["img/a.png"] }

/-- Fixture for C2: an annotation starting at line 0, word 1 — in bounds
for the buffer `["a b c"]`. -/
def exC2anno : AnnotationRecord :=
  { id := 0, chapter := 0, start_line := 0, start_word := 1,
    end_line := 0, end_word := 2, content := "b c", note := none,
    kind := "highlight" }

/-- Fixture for C6: an annotation spanning exactly one word, at line 3
word 5. -/
def exC6anno : AnnotationRecord :=
  { id := 0, chapter := 0, start_line := 3, start_word := 5,
    end_line := 3, end_word := 5, content := "w", note := none,
    kind := "highlight" }

/-! Helper lemmas. -/

theorem sync_word_index_current_line (b : LoadedBook) :
    (sync_word_index b).current_line = b.current_line := by
  unfold sync_word_index
  split <;> (try dsimp only) <;> (try split_ifs) <;> rfl

theorem sync_word_index_chapter_content (b : LoadedBook) :
    (sync_word_index b).chapter_content = b.chapter_content := by
  unfold sync_word_index
  split <;> (try dsimp only) <;> (try split_ifs) <;> rfl

theorem sync_word_index_zero (b : LoadedBook) (h : b.word_index = 0) :
    (sync_word_index b).word_index = 0 := by
  unfold sync_word_index
  split <;> (try dsimp only) <;> (try split_ifs) <;> simp_all <;> omega

theorem word_index_ok_zero (content : List RenderLine) (line : Nat) :
    word_index_ok content line 0 = true := by
  unfold word_index_ok
  split <;> (try dsimp only) <;> (try split_ifs) <;> simp_all

theorem filterMap_get?_range' {α : Type} (ws : List α) (a n : Nat) :
    (List.range' a n).filterMap ws.get? = (ws.drop a).take n := by
  induction n generalizing a with
  | zero => simp
  | succ n ih =>
      rw [List.range'_succ, List.filterMap_cons]
      cases hga : ws.get? a with
      | none =>
          have hlen : ws.length ≤ a := List.get?_eq_none.mp hga
          rw [ih, List.drop_eq_nil_of_le hlen,
            List.drop_eq_nil_of_le (by omega), List.take_nil, List.take_nil]
      | some x =>
          obtain ⟨hlt, hx⟩ := List.get?_eq_some.mp hga
          rw [ih, List.drop_eq_get_cons hlt, hx, List.take_succ_cons]

theorem selected_words_of_line_eq_spec (content : List RenderLine)
    (sl sw el ew li : Nat) :
    selected_words_of_line content sl sw el ew li =
      (let words :=
        match content.get? li with
        | some l => lineWords l
        | none => []
       let words := if li = el then words.take (ew + 1) else words
       if li = sl then words.drop sw else words) := by
  unfold selected_words_of_line
  cases hg : content.get? li with
  | none => dsimp only; split_ifs <;> simp
  | some l =>
      cases l with
      | Image p r => dsimp only [lineWords]; split_ifs <;> simp
      | Text s =>
          dsimp only [lineWords]
          rw [filterMap_get?_range']
          rcases eq_or_ne li sl with rfl | hsl
          · rcases eq_or_ne li el with rfl | hel
            · simp only [if_pos rfl, ite_true]
              rw [List.drop_take, List.take_eq_take, List.length_drop]
              omega
            · simp only [if_pos rfl, ite_true, if_neg hel]
              apply List.take_of_length_le
              rw [List.length_drop]
              omega
          · rcases eq_or_ne li el with rfl | hel
            · simp only [if_pos rfl, ite_true, if_neg hsl, List.drop_zero]
              rw [List.take_eq_take]
              omega
            · simp only [if_neg hsl, if_neg hel, List.drop_zero]
              apply List.take_of_length_le
              omega

/-- C10: `scroll_viewport_up` decrements `viewport_top` by exactly one
when `viewport_top > 0` and leaves it unchanged at `0`, and changes
nothing else: cursor line, word index, words-read counter, selection
anchor, render buffer, loaded annotations and all remaining fields of the
loaded book are untouched. -/
theorem C10_scroll_viewport_up_frame (b : LoadedBook) :
    (scroll_viewport_up b).viewport_top =
      (if 0 < b.viewport_top then b.viewport_top - 1 else b.viewport_top) ∧
    (scroll_viewport_up b).current_line = b.current_line ∧
    (scroll_viewport_up b).word_index = b.word_index ∧
    (scroll_viewport_up b).words_read = b.words_read ∧
    (scroll_viewport_up b).selection_anchor = b.selection_anchor ∧
    (scroll_viewport_up b).chapter_content = b.chapter_content ∧
    (scroll_viewport_up b).chapter_annotations = b.chapter_annotations ∧
    (scroll_viewport_up b).image_protocols = b.image_protocols ∧
    (scroll_viewport_up b).current_chapter = b.current_chapter ∧
    (scroll_viewport_up b).session_words_logged = b.session_words_logged ∧
    (scroll_viewport_up b).id = b.id ∧
    (scroll_viewport_up b).path = b.path := by
  unfold scroll_viewport_up
  split_ifs with h <;> simp [h]

/-- C9: from a cursor line that is neither the first nor the last line of
the render buffer, `move_cursor_down` followed by `move_cursor_up`
returns the cursor to its original line. -/
theorem C9_down_up_roundtrip (b : LoadedBook) (height : Nat)
    (h0 : 0 < b.current_line)
    (h1 : b.current_line + 1 < b.chapter_content.length) :
    (move_cursor_up (move_cursor_down height b)).current_line =
      b.current_line := by
  have hdown : (move_cursor_down height b).current_line = b.current_line + 1 := by
    unfold move_cursor_down
    rw [if_pos h1, sync_word_index_current_line]
    dsimp only
    split_ifs <;> rfl
  unfold move_cursor_up
  rw [if_pos (by omega : 0 < (move_cursor_down height b).current_line),
    sync_word_index_current_line]
  dsimp only
  split_ifs <;> simp [hdown]

/-- C9 witness: the round trip at a concrete interior line. -/
theorem C9_witness :
    (move_cursor_up (move_cursor_down 10
      (bookOf [RenderLine.Text "a b", RenderLine.Text "c",
        RenderLine.Text "d"] 1 0 none))).current_line =
    (bookOf [RenderLine.Text "a b", RenderLine.Text "c",
      RenderLine.Text "d"] 1 0 none).current_line :=
  C9_down_up_roundtrip _ 10 (by decide) (by decide)

/-- C6: the annotation membership test of the reader matches exactly the
claimed disjunction — `sl < line < el`, or `sl = el = line` with
`sw ≤ word ≤ ew`, or `line = sl` (with `sl ≠ el`) and `word ≥ sw`, or
`line = el` (with `sl ≠ el`) and `word ≤ ew` — and the one-word
annotation `(3, 5, 3, 5)` matches only `(line, word) = (3, 5)`. -/
theorem C6_membership_rule :
    (∀ (a : AnnotationRecord) (line wi : Nat),
      is_in_anno a line wi = true ↔
        ((a.start_line < line ∧ line < a.end_line) ∨
         (a.start_line = a.end_line ∧ a.end_line = line ∧
            a.start_word ≤ wi ∧ wi ≤ a.end_word) ∨
         (line = a.start_line ∧ a.start_line ≠ a.end_line ∧ a.start_word ≤ wi) ∨
         (line = a.end_line ∧ a.start_line ≠ a.end_line ∧ wi ≤ a.end_word))) ∧
    (∀ line wi : Nat, is_in_anno exC6anno line wi = true ↔ line = 3 ∧ wi = 5) := by
  constructor
  · intro a line wi
    unfold is_in_anno
    split_ifs <;> simp_all <;> omega
  · intro line wi
    unfold is_in_anno exC6anno
    split_ifs <;> simp_all <;> omega

/-- C7: with an anchor set, `get_selection_range` returns the anchor and
the cursor with the lexicographically earlier `(line, word)` point first,
whichever direction the cursor moved; and it returns `none` exactly when
no anchor is set. -/
theorem C7_selection_range_ordered (b : LoadedBook) :
    (get_selection_range b = none ↔ b.selection_anchor = none) ∧
    (∀ al aw, b.selection_anchor = some (al, aw) →
      ∃ sl sw el ew, get_selection_range b = some (sl, sw, el, ew) ∧
        (sl < el ∨ (sl = el ∧ sw ≤ ew)) ∧
        (((sl, sw) = (al, aw) ∧ (el, ew) = (b.current_line, b.word_index)) ∨
         ((sl, sw) = (b.current_line, b.word_index) ∧ (el, ew) = (al, aw)))) := by
  constructor
  · rcases hanch : b.selection_anchor with _ | ⟨al, aw⟩
    · simp [get_selection_range, hanch]
    · simp only [get_selection_range, hanch]
      split_ifs <;> simp
  · intro al aw hanch
    simp only [get_selection_range, hanch]
    split_ifs with hcond
    · exact ⟨al, aw, b.current_line, b.word_index, rfl, by omega,
        Or.inl ⟨rfl, rfl⟩⟩
    · exact ⟨b.current_line, b.word_index, al, aw, rfl, by omega,
        Or.inr ⟨rfl, rfl⟩⟩

/-- C7 witness: a concrete anchored book with the cursor before the
anchor. -/
theorem C7_witness :
    ∃ sl sw el ew,
      get_selection_range
        (bookOf [RenderLine.Text "a b c"] 0 1 (some (0, 2))) =
          some (sl, sw, el, ew) ∧
      (sl < el ∨ (sl = el ∧ sw ≤ ew)) ∧
      (((sl, sw) = (0, 2) ∧
          (el, ew) = ((bookOf [RenderLine.Text "a b c"] 0 1 (some (0, 2))).current_line,
            (bookOf [RenderLine.Text "a b c"] 0 1 (some (0, 2))).word_index)) ∨
       ((sl, sw) = ((bookOf [RenderLine.Text "a b c"] 0 1 (some (0, 2))).current_line,
            (bookOf [RenderLine.Text "a b c"] 0 1 (some (0, 2))).word_index) ∧
          (el, ew) = (0, 2))) :=
  (C7_selection_range_ordered
    (bookOf [RenderLine.Text "a b c"] 0 1 (some (0, 2)))).2 0 2 (by decide)

/-- C1 counterexample: on the buffer `["a b c", "x"]` with the cursor at
word 0 of line 1, `cursor_left` lands on line 0 at word 0 — not at that
line's last word index 2 as the claim states. -/
theorem C1_counterexample :
    (cursor_left exC1).current_line = 0 ∧
    (cursor_left exC1).word_index = 0 ∧
    (splitWhitespace "a b c").length - 1 = 2 ∧
    (cursor_left exC1).word_index ≠ (splitWhitespace "a b c").length - 1 := by
  decide

/-- C1 amended: for every open book whose cursor is at word 0 of an
in-range line with index > 0, `cursor_left` moves the cursor to the
previous line with `word_index = 0` (`sync_word_index` only clamps a
too-large index, and 0 is valid for every line). -/
theorem C1_cursor_left_prev_line_word_zero (b : LoadedBook)
    (hline : 0 < b.current_line)
    (hlen : b.current_line < b.chapter_content.length)
    (hword : b.word_index = 0) :
    (cursor_left b).current_line = b.current_line - 1 ∧
    (cursor_left b).word_index = 0 := by
  obtain ⟨l, hl⟩ : ∃ l, b.chapter_content.get? b.current_line = some l :=
    ⟨_, List.get?_eq_get hlen⟩
  have hret_line : (cursor_left_retreat b).current_line = b.current_line - 1 := by
    unfold cursor_left_retreat
    rw [if_pos hline]
    dsimp only
    rw [sync_word_index_current_line]
    split_ifs <;> rfl
  have hret_word : (cursor_left_retreat b).word_index = 0 := by
    unfold cursor_left_retreat
    rw [if_pos hline]
    dsimp only
    split_ifs <;> exact sync_word_index_zero _ (by simpa using hword)
  unfold cursor_left
  rw [hl]
  cases l with
  | Text s =>
      dsimp only
      rw [if_neg (by omega : ¬ b.word_index > 0), if_pos hline]
      exact ⟨hret_line, hret_word⟩
  | Image p r =>
      dsimp only
      exact ⟨hret_line, hret_word⟩

/-- C1 witness: the amended behaviour at a concrete book. -/
theorem C1_witness :
    (cursor_left exC1).current_line = exC1.current_line - 1 ∧
    (cursor_left exC1).word_index = 0 :=
  C1_cursor_left_prev_line_word_zero exC1 (by decide) (by decide) (by decide)

/-- C2 counterexample: loading a book whose stored progress line (5)
exceeds the one-line buffer its chapter flattens to leaves the cursor out
of bounds — `load_book` does not re-clamp the cursor against the new
buffer, so the cursor invariant fails. -/
theorem C2_counterexample :
    cursorInvariant (load_book exC2record [PageContent.Text "a"] []) = false ∧
    (load_book exC2record [PageContent.Text "a"] []).current_line = 5 ∧
    (load_book exC2record [PageContent.Text "a"] []).chapter_content.length = 1 := by
  decide

/-- C2 amended: neither `load_book` nor a same-unit annotation jump
re-clamps the cursor against the buffer.  The invariant holds after
`load_book` exactly when the stored progress line is within the new
buffer (the word index is reset to 0, valid on every line), and after a
same-unit annotation jump exactly when the annotation's start position is
itself within the buffer's bounds. -/
theorem C2_invariant_only_if_in_bounds :
    (∀ (record : BookRecord) (content : List PageContent)
        (annos : List AnnotationRecord),
      record.current_line < (flatten_content content).1.length →
      cursorInvariant (load_book record content annos) = true) ∧
    (∀ (b : LoadedBook) (anno : AnnotationRecord),
      anno.start_line < b.chapter_content.length →
      word_index_ok b.chapter_content anno.start_line anno.start_word = true →
      cursorInvariant (jump_to_anno_same_chapter b anno) = true) := by
  constructor
  · intro record content annos hlt
    unfold cursorInvariant load_book
    dsimp only
    rw [word_index_ok_zero]
    simpa using hlt
  · intro b anno hlt hok
    unfold cursorInvariant jump_to_anno_same_chapter
    dsimp only
    rw [hok]
    simpa using hlt

/-- C2 witness: both amended statements at concrete inputs — an in-bounds
stored line, and an in-bounds annotation jump. -/
theorem C2_witness :
    cursorInvariant (load_book
      { exC2record with current_line := 0 } [PageContent.Text "a"] []) = true ∧
    cursorInvariant (jump_to_anno_same_chapter
      (bookOf [RenderLine.Text "a b c"] 0 0 none) exC2anno) = true :=
  ⟨C2_invariant_only_if_in_bounds.1 _ _ _ (by decide),
   C2_invariant_only_if_in_bounds.2 _ _ (by decide) (by decide)⟩

/-- C3: when the external text extraction for a page succeeds, the PDF
extractor's `get_chapter_content` never returns an error; and on degraded
content — text empty after trimming (blank or scanned page) — the result
is a single image item (when rasterization succeeds) or the placeholder
text item, for every outcome of the rasterizer. -/
theorem C3_pdf_degrades_never_errors (text : String)
    (renderResult : Except String (Nat × Nat)) :
    (∃ items, PdfParser.get_chapter_content (.ok text) renderResult = .ok items) ∧
    (rust_trim text = "" →
      (∃ w h, PdfParser.get_chapter_content (.ok text) renderResult =
          .ok [PageContent.Image w h]) ∨
      PdfParser.get_chapter_content (.ok text) renderResult =
        .ok [PageContent.Text " [ Blank Page or Text Not Extractable ] "]) := by
  unfold PdfParser.get_chapter_content
  dsimp only
  split_ifs with htrim
  · rcases renderResult with e | ⟨w, h⟩
    · exact ⟨⟨_, rfl⟩, fun _ => Or.inr rfl⟩
    · exact ⟨⟨_, rfl⟩, fun _ => Or.inl ⟨w, h, rfl⟩⟩
  · exact ⟨⟨_, rfl⟩, fun h => absurd h htrim⟩

/-- C3 witness: a blank page (whitespace-only extracted text) with a
failing rasterizer degrades to the placeholder item. -/
theorem C3_witness :
    rust_trim " \n " = "" ∧
    ((∃ w h, PdfParser.get_chapter_content (.ok " \n ") (.error "pdftoppm failed") =
        .ok [PageContent.Image w h]) ∨
      PdfParser.get_chapter_content (.ok " \n ") (.error "pdftoppm failed") =
        .ok [PageContent.Text " [ Blank Page or Text Not Extractable ] "]) :=
  ⟨by decide, (C3_pdf_degrades_never_errors " \n " (.error "pdftoppm failed")).2 (by decide)⟩

/-- C4 counterexample: the source truncates the fractional height toward
zero instead of rounding it.  For an image of width 128 and height 70 the
exact value is `80 * (70/128) * 0.5 = 21.875` (representable exactly in
`f32`): the code emits 21 image rows while the claimed
`clamp(round(…), 5, 30)` is 22. -/
theorem C4_counterexample :
    height_lines 128 70 = 21 ∧
    spec_height_lines 128 70 = 22 ∧
    (flatten_content [PageContent.Image 128 70]).1.length = 21 ∧
    (flatten_content [PageContent.Image 128 70]).1.length ≠
      spec_height_lines 128 70 := by
  have hf : Int.floor (((80 : ℚ) * (((70 : ℕ) : ℚ) / (((128 : ℕ)) : ℚ)) * (1 / 2)) +
      1 / 2) = 22 := by
    rw [Int.floor_eq_iff] <;> norm_num
  have hspec : spec_height_lines 128 70 = 22 := by
    unfold spec_height_lines
    rw [hf]
    decide
  exact ⟨by decide, hspec, by decide, by rw [hspec]; decide⟩

/-- C4 amended: for every image with pixel width `w > 0` and height `h`,
appended to any previously flattened content, the flattener assigns a
display height of `clamp(trunc(80 * (h/w) * 0.5), 5, 30)` lines — the
`f32` value is truncated toward zero, not rounded — and emits exactly
that many consecutive `ImageRow` entries sharing the one new protocol
index, appending the image once to the side table. -/
theorem C4_image_height_truncated (content : List PageContent) (w h : Nat)
    (hw : 0 < w) :
    (flatten_content (content ++ [PageContent.Image w h])).1 =
      (content.foldl flatten_step ([], [])).1 ++
        (List.range (height_lines w h)).map
          (fun i => RenderLine.Image
            (content.foldl flatten_step ([], [])).2.length i) ∧
    (flatten_content (content ++ [PageContent.Image w h])).2 =
      (content.foldl flatten_step ([], [])).2 ++ [(w, h)] ∧
    height_lines w h = min (max (40 * h / w) 5) 30 ∧
    5 ≤ height_lines w h := by
  have h5 : 5 ≤ height_lines w h := by
    unfold height_lines
    exact le_min (Nat.le_max_right _ 5) (by norm_num)
  have hfold : (content ++ [PageContent.Image w h]).foldl flatten_step ([], []) =
      flatten_step (content.foldl flatten_step ([], [])) (PageContent.Image w h) := by
    rw [List.foldl_append]
    rfl
  unfold flatten_content
  rw [hfold]
  rcases hp : content.foldl flatten_step ([], []) with ⟨lines, protocols⟩
  dsimp only [flatten_step]
  have hne : (lines ++ (List.range (height_lines w h)).map
      (fun i => RenderLine.Image protocols.length i)).isEmpty = false := by
    rw [List.isEmpty_eq_false_iff_exists_mem]
    exact ⟨RenderLine.Image protocols.length 0,
      List.mem_append_right _ (List.mem_map_of_mem _ (List.mem_range.mpr (by omega)))⟩
  rw [hne]
  exact ⟨rfl, rfl, rfl, h5⟩

/-- C4 witness: the spec's own example — an image of width 200 and height
100 (`80 * 0.5 * 0.5 = 20`, exact in `f32`) flattens to exactly 20
consecutive image rows. -/
theorem C4_witness :
    0 < 200 ∧
    (flatten_content ([] ++ [PageContent.Image 200 100])).1 =
      (([] : List PageContent).foldl flatten_step ([], [])).1 ++
        (List.range (height_lines 200 100)).map
          (fun i => RenderLine.Image
            (([] : List PageContent).foldl flatten_step ([], [])).2.length i) ∧
    height_lines 200 100 = 20 ∧
    (flatten_content [PageContent.Image 200 100]).1.length = 20 :=
  ⟨by decide, (C4_image_height_truncated [] 200 100 (by decide)).1,
    by decide, by decide⟩

/-- C5 counterexample: a reference that resolves both as a manifest
resource id (bytes 1) and, stripped of its `epub://` scheme, as an
archive path (bytes 2).  The extractor returns the archive-path bytes,
so the archive-path lookup runs before the resource-id lookup — not
after it, as the claim orders the chain. -/
theorem C5_counterexample :
    exC5doc.byId "epub://img/a.png" = some 1 ∧
    EpubParser.resolve_image_bytes exC5doc "epub://img/a.png" = some 2 ∧
    EpubParser.spec_resolve_image_bytes exC5doc "epub://img/a.png" = some 1 ∧
    EpubParser.resolve_image_bytes exC5doc "epub://img/a.png" ≠
      EpubParser.spec_resolve_image_bytes exC5doc "epub://img/a.png" := by
  decide

/-- C5 amended: the extractor resolves an image reference by trying,
in order: first (only when the reference carries the internal `epub://`
scheme) the internal archive path with any fragment/query suffix
stripped; second the internal resource identifier; third the trailing
filename against all known resource paths.  On failure of all three it
emits a TextBlock placeholder naming the missing resource, and
extraction continues. -/
theorem C5_resolution_chain_order :
    (∀ (doc : EpubParser.EpubDocM) (src : String),
      EpubParser.resolve_image_bytes doc src = amended_resolve doc src) ∧
    (∀ (doc : EpubParser.EpubDocM) (decode : Nat → Option (Nat × Nat))
        (src : String),
      EpubParser.resolve_image_bytes doc src = none →
      EpubParser.emit_image_item doc decode src =
        PageContent.Text ("[ Image resource not found: " ++ src ++ " ]")) := by
  constructor
  · intro doc src
    unfold EpubParser.resolve_image_bytes amended_resolve
    rcases h1 : (if starts_with src "epub://" then
        doc.byPath (EpubParser.strip_frag_query (string_drop src 7))
      else none) with _ | b1
    · rcases h2 : doc.byId src with _ | b2
      · by_cases h4 : EpubParser.file_name src = ""
        · simp [h1, h2, h4, Option.orElse]
        · rcases h3 : doc.resourcePaths.find?
              (fun p => ends_with p (EpubParser.file_name src)) with _ | p
          · simp [h1, h2, h3, h4, Option.orElse]
          · rcases h5 : doc.byPath p with _ | b5 <;>
              simp [h1, h2, h3, h4, h5, Option.orElse]
      · simp [h1, h2, Option.orElse]
    · simp [h1, Option.orElse]
  · intro doc decode src hnone
    unfold EpubParser.emit_image_item
    rw [hnone]

/-- C5 witness: an unresolvable reference yields the not-found
placeholder naming it. -/
theorem C5_witness :
    EpubParser.resolve_image_bytes exC5doc "nope.xyz" = none ∧
    EpubParser.emit_image_item exC5doc (fun _ => none) "nope.xyz" =
      PageContent.Text ("[ Image resource not found: " ++ "nope.xyz" ++ " ]") :=
  ⟨by decide,
    C5_resolution_chain_order.2 exC5doc (fun _ => none) "nope.xyz" (by decide)⟩

/-- C8: with an active range, `get_selected_text` equals the spec's
line-by-line slicing (words from `start_word` on the start line, whole
lines between, words up to `end_word` on the end line, joined by single
spaces); on a single-line range with both bounds valid it is exactly
words `sw..=ew` of that line joined by single spaces. -/
theorem C8_selected_text_slices (b : LoadedBook) (sl sw el ew : Nat)
    (hrange : get_selection_range b = some (sl, sw, el, ew)) :
    get_selected_text b = spec_selected_text b.chapter_content sl sw el ew ∧
    (∀ t, sl = el → b.chapter_content.get? sl = some (RenderLine.Text t) →
      sw ≤ ew → ew < (splitWhitespace t).length →
      get_selected_text b =
        String.intercalate " " (((splitWhitespace t).take (ew + 1)).drop sw)) := by
  have hmain : get_selected_text b =
      spec_selected_text b.chapter_content sl sw el ew := by
    have hfun := funext (selected_words_of_line_eq_spec b.chapter_content sl sw el ew)
    unfold get_selected_text spec_selected_text
    rw [hrange]
    dsimp only
    rw [hfun]
  refine ⟨hmain, fun t heq hget hsw hew => ?_⟩
  subst heq
  rw [hmain]
  unfold spec_selected_text
  rw [Nat.add_sub_cancel_left]
  simp only [List.range'_one, List.flatMap_cons, List.flatMap_nil, List.append_nil,
    hget, lineWords, if_pos rfl, ite_true]

/-- C8 witness: selecting words 1..2 of the single line `"a b c"`. -/
theorem C8_witness :
    get_selection_range (bookOf [RenderLine.Text "a b c"] 0 2 (some (0, 1))) =
      some (0, 1, 0, 2) ∧
    get_selected_text (bookOf [RenderLine.Text "a b c"] 0 2 (some (0, 1))) =
      String.intercalate " " (((splitWhitespace "a b c").take 3).drop 1) ∧
    get_selected_text (bookOf [RenderLine.Text "a b c"] 0 2 (some (0, 1))) =
      "b c" :=
  ⟨by decide,
    (C8_selected_text_slices (bookOf [RenderLine.Text "a b c"] 0 2 (some (0, 1)))
      0 1 0 2 (by decide)).2 "a b c" rfl (by decide) (by decide) (by decide),
    by decide⟩

end Tbook
